import Mathlib

set_option maxHeartbeats 1000000
set_option maxRecDepth 10000

/-!
Shallow embedding of the Streams message codec: the Spongos-driven DDML
contexts, the HDF header codec (`lets/src/message/hdf.rs`), the Keyload
content codec (`iota-streams-app-channels/src/message/keyload.rs`), the
Identity/Identifier layer (`lets/src/id/identity.rs`) and the Topic codec
(`lets/src/message/topic.rs`).

Bytes are modelled as `Nat` (the wire values produced by the code are
always < 256); streams are `List Nat`.  Fallible operations return
`Except Err`.  The DDML command machinery itself (Spongos state, the
absorb/mask/skip/squeeze/commit/fork/join/drop commands, the `Size`
varint, `Maybe`, and the `Identifier` wire format) is not part of the
provided sources, so those parts are modelled from the specification, as
marked on each definition.
-/

/-- Error kinds surfaced by the codec (spec section 7).  The Rust code
uses `anyhow` string errors; each constructor stands for one of the
distinct error sites relevant here. -/
inductive Err
  | streamExhausted
  | versionNotSupported
  | reservedPayloadBits
  | invalidFrameType
  | reservedFrameCountBits
  | macMismatch
  | signatureInvalid
  | unknownVariant
  | sizeOutOfRange
  | utf8Error
  | keyMaterialLength
deriving DecidableEq, Repr

/-- Modelled from the spec: the pseudo-random permutation F driving the
sponge (section 4.A; the Rust reference uses KeccakF1600, supplied by an
external crate).  `f` maps the (outer, inner) buffers to new buffers;
`rate` is the width of the outer buffer. -/
structure PRP where
  rate : Nat
  f : List Nat → List Nat → List Nat × List Nat

/-- Modelled from the spec: the Spongos duplex state (section 4.A): a
fixed-width inner+outer buffer plus the outer byte cursor. -/
structure Spongos where
  pos : Nat
  outer : List Nat
  inner : List Nat
deriving DecidableEq, Repr

/-- Modelled from the spec: apply F to the state, resetting the cursor. -/
def Spongos.permute (F : PRP) (s : Spongos) : Spongos :=
  let p := F.f s.outer s.inner
  ⟨0, p.1, p.2⟩

/-- Modelled from the spec: `commit` — if the outer cursor is ahead,
apply F and reset the cursor (section 4.A). -/
def Spongos.commit (F : PRP) (s : Spongos) : Spongos :=
  if s.pos = 0 then s else s.permute F

/-- Modelled from the spec: permute first when the outer buffer is full
("if internal buffer full, permute"). -/
def Spongos.avail (F : PRP) (s : Spongos) : Spongos :=
  if s.pos < F.rate then s else s.permute F

/-- Modelled from the spec: absorb one byte — XOR it into the outer
buffer at the cursor and advance. -/
def Spongos.absorbByte (F : PRP) (s : Spongos) (b : Nat) : Spongos :=
  let t := s.avail F
  ⟨t.pos + 1, t.outer.set t.pos (t.outer.getD t.pos 0 ^^^ b), t.inner⟩

/-- Modelled from the spec: absorb a byte string, byte for byte. -/
def Spongos.absorb (F : PRP) (s : Spongos) : List Nat → Spongos
  | [] => s
  | b :: rest => (s.absorbByte F b).absorb F rest

/-- Modelled from the spec: encrypt one byte — cipher is plain XOR outer,
then the outer byte becomes the plain byte (section 4.A). -/
def Spongos.encryptByte (F : PRP) (s : Spongos) (b : Nat) : Spongos × Nat :=
  let t := s.avail F
  (⟨t.pos + 1, t.outer.set t.pos b, t.inner⟩, b ^^^ t.outer.getD t.pos 0)

/-- Modelled from the spec: encrypt a byte string (used by `mask` on wrap). -/
def Spongos.encrypt (F : PRP) (s : Spongos) : List Nat → Spongos × List Nat
  | [] => (s, [])
  | b :: rest =>
    let r := s.encryptByte F b
    let rr := r.1.encrypt F rest
    (rr.1, r.2 :: rr.2)

/-- Modelled from the spec: decrypt one byte — plain is cipher XOR outer,
then the outer byte becomes the plain byte (section 4.A). -/
def Spongos.decryptByte (F : PRP) (s : Spongos) (b : Nat) : Spongos × Nat :=
  let t := s.avail F
  let p := b ^^^ t.outer.getD t.pos 0
  (⟨t.pos + 1, t.outer.set t.pos p, t.inner⟩, p)

/-- Modelled from the spec: decrypt a byte string (used by `mask` on unwrap). -/
def Spongos.decrypt (F : PRP) (s : Spongos) : List Nat → Spongos × List Nat
  | [] => (s, [])
  | b :: rest =>
    let r := s.decryptByte F b
    let rr := r.1.decrypt F rest
    (rr.1, r.2 :: rr.2)

/-- Modelled from the spec: read one pseudo-random byte from the outer
buffer and advance. -/
def Spongos.squeezeByte (F : PRP) (s : Spongos) : Spongos × Nat :=
  let t := s.avail F
  (⟨t.pos + 1, t.outer, t.inner⟩, t.outer.getD t.pos 0)

/-- Modelled from the spec: squeeze `n` bytes after the implicit commit
has been performed. -/
def Spongos.squeezeBytes (F : PRP) (s : Spongos) : Nat → Spongos × List Nat
  | 0 => (s, [])
  | n + 1 =>
    let r := s.squeezeByte F
    let rr := r.1.squeezeBytes F n
    (rr.1, r.2 :: rr.2)

/-- Modelled from the spec: `squeeze` — implicit commit, then emit `n`
pseudo-random bytes (section 4.A). -/
def Spongos.squeeze (F : PRP) (s : Spongos) (n : Nat) : Spongos × List Nat :=
  (s.commit F).squeezeBytes F n

theorem Spongos.encrypt_length (F : PRP) (s : Spongos) (bs : List Nat) :
    ((s.encrypt F bs).2).length = bs.length := by
  induction bs generalizing s with
  | nil => rfl
  | cons b rest ih => simp [Spongos.encrypt, ih]

theorem Spongos.decrypt_length (F : PRP) (s : Spongos) (bs : List Nat) :
    ((s.decrypt F bs).2).length = bs.length := by
  induction bs generalizing s with
  | nil => rfl
  | cons b rest ih => simp [Spongos.decrypt, ih]

theorem Spongos.squeezeBytes_length (F : PRP) (s : Spongos) (n : Nat) :
    ((s.squeezeBytes F n).2).length = n := by
  induction n generalizing s with
  | zero => rfl
  | succ n ih => simp [Spongos.squeezeBytes, ih]

theorem Spongos.squeeze_length (F : PRP) (s : Spongos) (n : Nat) :
    ((s.squeeze F n).2).length = n := by
  simp [Spongos.squeeze, Spongos.squeezeBytes_length]

/-- Fuel-driven base-256 digit count; the fuel only bounds the recursion
depth (any fuel at least the digit count gives the same value). -/
def sizeLengthAux : Nat → Nat → Nat
  | 0, _ => 0
  | fuel + 1, n => if n = 0 then 0 else sizeLengthAux fuel (n / 256) + 1

/-- Modelled from the spec: number of significant bytes of `n` for the
`Size` varint (section 4.C: one byte giving the number of significant
bytes, 0…8, followed by that many big-endian bytes). -/
def sizeLength (n : Nat) : Nat :=
  sizeLengthAux n n

/-- Modelled from the spec: `w` big-endian bytes of `n`. -/
def beBytes : Nat → Nat → List Nat
  | 0, _ => []
  | w + 1, n => beBytes w (n / 256) ++ [n % 256]

/-- Modelled from the spec: the full `Size` encoding of `n`. -/
def encodeSize (n : Nat) : List Nat :=
  sizeLength n :: beBytes (sizeLength n) n

/-- Big-endian recomposition of a byte string. -/
def fromBE (bs : List Nat) : Nat :=
  bs.foldl (fun a b => a * 256 + b) 0

theorem beBytes_length (w n : Nat) : (beBytes w n).length = w := by
  induction w generalizing n with
  | zero => rfl
  | succ w ih => simp [beBytes, ih]

theorem encodeSize_length (n : Nat) : (encodeSize n).length = 1 + sizeLength n := by
  simp [encodeSize, beBytes_length]
  omega

/-- Modelled from the spec: the unwrap context — sponge state plus a
forward-only input stream (sections 3 and 4.B). -/
structure UCtx where
  spongos : Spongos
  input : List Nat
deriving DecidableEq, Repr

/-- Modelled from the spec: `IStream::try_advance(n)` — consume `n`
bytes; fails on EOF. -/
def UCtx.readBytes (n : Nat) (c : UCtx) : Except Err (List Nat × UCtx) :=
  if n ≤ c.input.length then .ok (c.input.take n, ⟨c.spongos, c.input.drop n⟩)
  else .error .streamExhausted

/-- Modelled from the spec: `absorb` on unwrap — read plain bytes and
absorb them into the sponge. -/
def UCtx.absorbBytes (F : PRP) (n : Nat) (c : UCtx) : Except Err (List Nat × UCtx) := do
  let r ← c.readBytes n
  .ok (r.1, ⟨r.2.spongos.absorb F r.1, r.2.input⟩)

/-- Modelled from the spec: `absorb(Uint8)` on unwrap. -/
def UCtx.absorbU8 (F : PRP) (c : UCtx) : Except Err (Nat × UCtx) :=
  match c.input with
  | [] => .error .streamExhausted
  | b :: rest => .ok (b, ⟨c.spongos.absorbByte F b, rest⟩)

/-- Modelled from the spec: `mask` on unwrap — read cipher bytes,
decrypt them against the sponge, return the plaintext. -/
def UCtx.maskBytes (F : PRP) (n : Nat) (c : UCtx) : Except Err (List Nat × UCtx) := do
  let r ← c.readBytes n
  let d := c.spongos.decrypt F r.1
  .ok (d.2, ⟨d.1, r.2.input⟩)

/-- Modelled from the spec: `mask(Uint8)` on unwrap. -/
def UCtx.maskU8 (F : PRP) (c : UCtx) : Except Err (Nat × UCtx) :=
  match c.input with
  | [] => .error .streamExhausted
  | b :: rest =>
    let r := c.spongos.decryptByte F b
    .ok (r.2, ⟨r.1, rest⟩)

/-- Modelled from the spec: `skip` on unwrap — consume wire bytes with
no sponge update. -/
def UCtx.skipBytes (n : Nat) (c : UCtx) : Except Err (List Nat × UCtx) :=
  c.readBytes n

/-- Modelled from the spec: `drop(n)` — consume and discard `n` wire
bytes with no sponge update (used for undecryptable keyload branches). -/
def UCtx.dropBytes (n : Nat) (c : UCtx) : Except Err UCtx :=
  (c.readBytes n).map (fun r => r.2)

/-- Modelled from the spec: `absorb(External ...)` — sponge update with
no byte consumption. -/
def UCtx.absorbExternal (F : PRP) (bs : List Nat) (c : UCtx) : UCtx :=
  ⟨c.spongos.absorb F bs, c.input⟩

/-- Modelled from the spec: `absorb(External(Uint8))`. -/
def UCtx.absorbExternalU8 (F : PRP) (b : Nat) (c : UCtx) : UCtx :=
  ⟨c.spongos.absorbByte F b, c.input⟩

/-- Modelled from the spec: `commit` on the unwrap context. -/
def UCtx.commit (F : PRP) (c : UCtx) : UCtx :=
  ⟨c.spongos.commit F, c.input⟩

/-- Modelled from the spec: `squeeze(Mac)` on unwrap — squeeze the tag
and compare it against the next wire bytes (spec section 4.C). -/
def UCtx.squeezeMacU (F : PRP) (n : Nat) (c : UCtx) : Except Err UCtx := do
  let t := c.spongos.squeeze F n
  let r ← (UCtx.mk t.1 c.input).readBytes n
  if r.1 = t.2 then .ok r.2 else .error .macMismatch

/-- Modelled from the spec: external squeeze — derive bytes from the
sponge without touching the stream. -/
def UCtx.squeezeExternal (F : PRP) (n : Nat) (c : UCtx) : List Nat × UCtx :=
  let t := c.spongos.squeeze F n
  (t.2, ⟨t.1, c.input⟩)

/-- Modelled from the spec: `absorb(Size)` on unwrap — length byte
(0…8), then that many big-endian bytes, all absorbed. -/
def UCtx.absorbSize (F : PRP) (c : UCtx) : Except Err (Nat × UCtx) := do
  let d ← c.absorbU8 F
  if d.1 ≤ 8 then do
    let bs ← d.2.absorbBytes F d.1
    .ok (fromBE bs.1, bs.2)
  else .error .sizeOutOfRange

/-- Modelled from the spec: `skip(Size)` on unwrap — same wire form, no
sponge update. -/
def UCtx.skipSize (c : UCtx) : Except Err (Nat × UCtx) := do
  let d ← c.readBytes 1
  let dv := d.1.getD 0 0
  if dv ≤ 8 then do
    let bs ← d.2.readBytes dv
    .ok (fromBE bs.1, bs.2)
  else .error .sizeOutOfRange

/-- Modelled from the spec: the wrap context — sponge state plus the
output stream written so far (sections 3 and 4.B). -/
structure WCtx where
  spongos : Spongos
  output : List Nat
deriving DecidableEq, Repr

/-- Modelled from the spec: `absorb` on wrap — write plain bytes and
absorb them into the sponge. -/
def WCtx.absorbBytes (F : PRP) (bs : List Nat) (c : WCtx) : WCtx :=
  ⟨c.spongos.absorb F bs, c.output ++ bs⟩

/-- Modelled from the spec: `absorb(Uint8)` on wrap. -/
def WCtx.absorbU8 (F : PRP) (b : Nat) (c : WCtx) : WCtx :=
  ⟨c.spongos.absorbByte F b, c.output ++ [b]⟩

/-- Modelled from the spec: `mask` on wrap — encrypt the plaintext
against the sponge and write the cipher bytes. -/
def WCtx.maskBytes (F : PRP) (bs : List Nat) (c : WCtx) : WCtx :=
  let e := c.spongos.encrypt F bs
  ⟨e.1, c.output ++ e.2⟩

/-- Modelled from the spec: `skip` on wrap — write wire bytes with no
sponge update (`command/wrap/skip.rs` is the in-source witness of this). -/
def WCtx.skipBytes (bs : List Nat) (c : WCtx) : WCtx :=
  ⟨c.spongos, c.output ++ bs⟩

/-- Modelled from the spec: `absorb(External ...)` on wrap. -/
def WCtx.absorbExternal (F : PRP) (bs : List Nat) (c : WCtx) : WCtx :=
  ⟨c.spongos.absorb F bs, c.output⟩

/-- Modelled from the spec: `absorb(External(Uint8))` on wrap. -/
def WCtx.absorbExternalU8 (F : PRP) (b : Nat) (c : WCtx) : WCtx :=
  ⟨c.spongos.absorbByte F b, c.output⟩

/-- Modelled from the spec: `commit` on the wrap context. -/
def WCtx.commit (F : PRP) (c : WCtx) : WCtx :=
  ⟨c.spongos.commit F, c.output⟩

/-- Modelled from the spec: `squeeze(Mac)` on wrap — squeeze the tag and
emit it on the wire. -/
def WCtx.squeezeMacW (F : PRP) (n : Nat) (c : WCtx) : WCtx :=
  let t := c.spongos.squeeze F n
  ⟨t.1, c.output ++ t.2⟩

/-- Modelled from the spec: `absorb(Size)` on wrap. -/
def WCtx.absorbSize (F : PRP) (n : Nat) (c : WCtx) : WCtx :=
  c.absorbBytes F (encodeSize n)

/-- Modelled from the spec: `skip(Size)` on wrap (`wrap/skip.rs`). -/
def WCtx.skipSize (n : Nat) (c : WCtx) : WCtx :=
  c.skipBytes (encodeSize n)

/-- Modelled from the spec: `join` — the context sponge becomes a fork
of the spongos stored for the link, which then absorbs the link; no
stream bytes (section 4.C). -/
def joinSponge (F : PRP) (stored : Spongos) (link : List Nat) : Spongos :=
  stored.absorb F link

/-- Modelled from the spec: the `Maybe<MsgId>` absorb on wrap — one
presence byte 0/1 followed by the message id bytes when present
(section 4.C); `MsgId` is a fixed 12-byte identifier (section 6). -/
def WCtx.absorbMaybe (F : PRP) (m : Option (List Nat)) (c : WCtx) : WCtx :=
  match m with
  | none => c.absorbU8 F 0
  | some a => (c.absorbU8 F 1).absorbBytes F a

/-- Modelled from the spec: the `Maybe<MsgId>` absorb on unwrap. -/
def UCtx.absorbMaybe (F : PRP) (n : Nat) (c : UCtx) : Except Err (Option (List Nat) × UCtx) := do
  let o ← c.absorbU8 F
  match o.1 with
  | 0 => .ok (none, o.2)
  | 1 => do
    let r ← o.2.absorbBytes F n
    .ok (some r.1, r.2)
  | _ => .error .unknownVariant

/-- The `Identifier` sum of `lets` (spec section 4.E): Ed25519 public
key, pre-shared-key id, or DID URI bytes. -/
inductive Identifier
  | Ed25519PublicKey (pk : List Nat)
  | PskId (pskid : List Nat)
  | DID (uri : List Nat)
deriving DecidableEq, Repr

/-- Structural well-formedness of an `Identifier`: the fixed-width
variants carry their declared number of bytes (32 and 16). -/
def Identifier.WF : Identifier → Prop
  | .Ed25519PublicKey pk => pk.length = 32
  | .PskId p => p.length = 16
  | .DID _ => True

/-- Modelled from the spec: `mask(Identifier)` on wrap — variant tag
byte 0x00/0x01/0x02 then the payload, the DID payload as `Bytes`
(section 4.E). -/
def WCtx.maskIdentifierW (F : PRP) (id : Identifier) (c : WCtx) : WCtx :=
  match id with
  | .Ed25519PublicKey pk => (c.maskBytes F [0]).maskBytes F pk
  | .PskId p => (c.maskBytes F [1]).maskBytes F p
  | .DID uri => ((c.maskBytes F [2]).maskBytes F (encodeSize uri.length)).maskBytes F uri

/-- Modelled from the spec: masked `Bytes` on unwrap — a masked `Size`
varint followed by that many masked bytes. -/
def UCtx.maskBytesDyn (F : PRP) (c : UCtx) : Except Err (List Nat × UCtx) := do
  let d ← c.maskU8 F
  if d.1 ≤ 8 then do
    let lb ← d.2.maskBytes F d.1
    let payload ← lb.2.maskBytes F (fromBE lb.1)
    .ok (payload.1, payload.2)
  else .error .sizeOutOfRange

/-- Modelled from the spec: `mask(Identifier)` on unwrap. -/
def UCtx.maskIdentifierU (F : PRP) (c : UCtx) : Except Err (Identifier × UCtx) := do
  let t ← c.maskU8 F
  match t.1 with
  | 0 => do
    let r ← t.2.maskBytes F 32
    .ok (.Ed25519PublicKey r.1, r.2)
  | 1 => do
    let r ← t.2.maskBytes F 16
    .ok (.PskId r.1, r.2)
  | 2 => do
    let r ← t.2.maskBytesDyn F
    .ok (.DID r.1, r.2)
  | _ => .error .unknownVariant

/-- Modelled from the spec: byte count of `mask(Identifier)` in the
sizeof context. -/
def sizeofIdentifier : Identifier → Nat
  | .Ed25519PublicKey _ => 1 + 32
  | .PskId _ => 1 + 16
  | .DID uri => 1 + (1 + sizeLength uri.length + uri.length)

/-- Constant from `lets/src/message/version.rs` (spec section 6): the
payload-encoding sentinel. -/
def UTF8 : Nat := 0

/-- Constant from `lets/src/message/version.rs` (spec section 6): the
Streams version byte. -/
def STREAMS_1_VER : Nat := 0

/-- Constant from `lets/src/message/version.rs` (spec section 6): the
HDF frame type byte. -/
def HDF_ID : Nat := 0

/-- The header of a Streams message (`lets/src/message/hdf.rs`, struct
`HDF`).  `linked_msg_address` is an optional 12-byte `MsgId`;
`topic_hash` is 16 bytes; the publisher is an `Identifier`. -/
structure HDF where
  encoding : Nat
  version : Nat
  message_type : Nat
  payload_length : Nat
  frame_type : Nat
  payload_frame_count : Nat
  linked_msg_address : Option (List Nat)
  sequence : Nat
  publisher : Identifier
  topic_hash : List Nat
deriving DecidableEq, Repr

/-- Structural well-formedness of an `HDF` value: the byte-array fields
carry their declared widths. -/
def HDF.WF (hdf : HDF) : Prop :=
  hdf.topic_hash.length = 16 ∧ hdf.publisher.WF ∧
    (∀ a, hdf.linked_msg_address = some a → a.length = 12)

/-- The `Default` instance of `HDF` (hdf.rs lines 58-73), with the
default publisher taken as an all-zero Ed25519 public key. -/
def hdfDefault : HDF :=
  ⟨UTF8, STREAMS_1_VER, 0, 0, HDF_ID, 0, none, 0,
    .Ed25519PublicKey (List.replicate 32 0), List.replicate 16 0⟩

/-- `ContentSizeof<HDF>::sizeof` (hdf.rs lines 167-186): absorb u8
encoding + absorb u8 version + skip 2 + absorb external u8 (no bytes) +
absorb u8 frame type + skip 3 + absorb Maybe + mask 16-byte topic hash +
mask publisher identifier + skip Size(sequence) + commit + squeeze MAC(32). -/
def sizeofHDF (hdf : HDF) : Nat :=
  1 + 1 + 2 + 1 + 3 +
    (match hdf.linked_msg_address with
     | none => 1
     | some _ => 1 + 12) +
    16 + sizeofIdentifier hdf.publisher + (1 + sizeLength hdf.sequence) + 32

/-- `ContentWrap<HDF>::wrap` (hdf.rs lines 194-225).  The two packed
skip fields are built exactly as in the source: byte 0 of the pair is
`(message_type << 4) | ((payload_length >> 8) as u8 & 0b0011)`, byte 1
is the low payload-length byte; the three frame-count bytes are the low
three big-endian bytes of the u32 with byte 0 masked by `0b00111111`. -/
def wrapHDF (F : PRP) (sp : Spongos) (hdf : HDF) : WCtx :=
  let b0 := ((hdf.message_type * 16) % 256) ||| (((hdf.payload_length / 256) % 256) &&& 3)
  let b1 := hdf.payload_length % 256
  let f0 := ((hdf.payload_frame_count / 65536) % 256) &&& 63
  let f1 := (hdf.payload_frame_count / 256) % 256
  let f2 := hdf.payload_frame_count % 256
  let c := WCtx.mk sp []
  let c := c.absorbU8 F hdf.encoding
  let c := c.absorbU8 F hdf.version
  let c := c.skipBytes [b0, b1]
  let c := c.absorbExternalU8 F ((hdf.message_type * 16) % 256)
  let c := c.absorbU8 F hdf.frame_type
  let c := c.skipBytes [f0, f1, f2]
  let c := c.absorbMaybe F hdf.linked_msg_address
  let c := c.maskBytes F hdf.topic_hash
  let c := c.maskIdentifierW F hdf.publisher
  let c := c.skipSize hdf.sequence
  let c := c.commit F
  c.squeezeMacW F 32

/-- `ContentUnwrap<HDF>::unwrap` (hdf.rs lines 233-290), everything
after the encoding byte.  The guards are those of the source, byte for byte:
version must be STREAMS_1_VER; `message_type_and_payload_length[0] &
0b1100 == 0`; frame type must be HDF_ID; `payload_frame_count_bytes[0] &
0b1100 == 0` (note: the source checks `0b1100` here as well, not the top
two bits its comment and the wrap mask `0b00111111` designate); then the
field reconstruction of lines 275-287. -/
def unwrapHDFtail (F : PRP) (c : UCtx) : Except Err (UCtx × HDF) := do
  let ver ← c.absorbU8 F
  if ver.1 = STREAMS_1_VER then do
    let mtpl ← ver.2.skipBytes 2
    let b0 := mtpl.1.getD 0 0
    let b1 := mtpl.1.getD 1 0
    if b0 &&& 12 = 0 then do
      let c2 := mtpl.2.absorbExternalU8 F (b0 &&& 240)
      let ft ← c2.absorbU8 F
      if ft.1 = HDF_ID then do
        let fb ← ft.2.skipBytes 3
        let g0 := fb.1.getD 0 0
        if g0 &&& 12 = 0 then do
          let lnk ← fb.2.absorbMaybe F 12
          let th ← lnk.2.maskBytes F 16
          let pubr ← th.2.maskIdentifierU F
          let seq ← pubr.2.skipSize
          let cz := seq.2.commit F
          let cm ← cz.squeezeMacU F 32
          .ok (cm,
            { encoding := 0, version := ver.1, message_type := b0 / 16,
              payload_length := ((b0 &&& 3) * 256) ||| b1, frame_type := ft.1,
              payload_frame_count := g0 * 65536 + fb.1.getD 1 0 * 256 + fb.1.getD 2 0,
              linked_msg_address := lnk.1, sequence := seq.1,
              publisher := pubr.1, topic_hash := th.1 })
        else .error .reservedFrameCountBits
      else .error .invalidFrameType
    else .error .reservedPayloadBits
  else .error .versionNotSupported

/-- `ContentUnwrap<HDF>::unwrap` (hdf.rs lines 233-290): the first
absorbed byte becomes `hdf.encoding` (line 275) — there is no guard on
it — and the rest of the script follows in `unwrapHDFtail`. -/
def unwrapHDF (F : PRP) (c : UCtx) (_hdf0 : HDF) : Except Err (UCtx × HDF) := do
  let enc ← c.absorbU8 F
  let r ← unwrapHDFtail F enc.2
  .ok (r.1, { r.2 with encoding := enc.1 })

deriving instance DecidableEq for Except

/-- A small concrete permutation instance used for concrete runs: rate 4,
identity permutation. -/
def F0 : PRP := ⟨4, fun o i => (o, i)⟩

/-- A concrete initial sponge state for concrete runs. -/
def sp0 : Spongos := ⟨0, [0, 0, 0, 0], []⟩

/-- A valid header per the side conditions of the claim, with
`payload_frame_count = 2^18` (well below `2^22 - 1`). -/
def hdfFrame18 : HDF :=
  { hdfDefault with message_type := 3, payload_frame_count := 2 ^ 18 }

/-- A valid header with `payload_frame_count = 0`. -/
def hdfValid : HDF :=
  { hdfDefault with message_type := 3 }

/-- Claim C1 (code bug): the claimed round-trip fails on the code.  For
the valid header `hdfFrame18` (message_type 3 ≤ 15, payload_length 0,
payload_frame_count 2^18 ≤ 2^22 - 1, version STREAMS_1_VER, frame_type
HDF_ID, encoding UTF8), unwrap rejects the very bytes wrap produced:
wrap masks frame-count byte 0 with 0b00111111 (top two bits reserved),
but the unwrap guard (hdf.rs lines 264-267) tests `& 0b1100`, i.e. bits
2-3 — which are legitimate frame-count bits 18-19 — so the code errors
where the claim requires a successful round-trip. -/
theorem hdf_roundtrip_fails_on_valid_frame_count :
    hdfFrame18.payload_frame_count < 2 ^ 22 ∧
      unwrapHDF F0 ⟨sp0, (wrapHDF F0 sp0 hdfFrame18).output⟩ hdfDefault
        = .error .reservedFrameCountBits := by
  constructor
  · decide
  · decide

/-- Claim C2 (code bug): setting bit 6 of frame-count byte 0 (wire byte
5) in an otherwise valid wrapped header does NOT make unwrap fail —
`0b01000000 & 0b1100 = 0` passes the guard, the bytes are `skip`ped so
the MAC still matches, and unwrap completes, silently decoding
`payload_frame_count = 2^22`; whereas byte value `0b0100` (bits 6-7
clear) IS rejected.  The code therefore raises the reserved-bit error on
the wrong bits (hdf.rs lines 264-267). -/
theorem hdf_frame_count_reserved_guard_checks_wrong_bits :
    ((unwrapHDF F0 ⟨sp0, ((wrapHDF F0 sp0 hdfValid).output.set 5 64)⟩ hdfDefault).map
        (fun r => r.2.payload_frame_count) = .ok (2 ^ 22)) ∧
      unwrapHDF F0 ⟨sp0, ((wrapHDF F0 sp0 hdfValid).output.set 5 4)⟩ hdfDefault
        = .error .reservedFrameCountBits := by
  constructor
  · decide
  · decide

/-- A header identical to `hdfValid` except that its encoding byte is 1
instead of the UTF8 sentinel 0. -/
def hdfEnc1 : HDF :=
  { hdfValid with encoding := 1 }

/-- Claim C7 counterexample: a stream whose first byte is 1 (not the
UTF8 sentinel) on which HDF unwrap nevertheless succeeds, returning a
header with `encoding = 1`: the unwrap script guards version, reserved
bits and frame type but never the encoding byte. -/
theorem hdf_unwrap_accepts_non_utf8_encoding :
    ((wrapHDF F0 sp0 hdfEnc1).output.headD 0 ≠ UTF8) ∧
      (unwrapHDF F0 ⟨sp0, (wrapHDF F0 sp0 hdfEnc1).output⟩ hdfDefault).map
          (fun r => r.2.encoding) = .ok 1 := by
  constructor
  · decide
  · decide

/-- Claim C7 (amended): HDF unwrap performs no validation of the
encoding field; a successfully unwrapped HDF has `encoding` equal to the
first byte of the input stream, whatever that byte is. -/
theorem unwrapHDF_encoding_is_first_byte (F : PRP) (c : UCtx) (h0 : HDF)
    (r : UCtx × HDF) (h : unwrapHDF F c h0 = .ok r) :
    c.input ≠ [] ∧ r.2.encoding = c.input.headD 0 := by
  cases hc : c.input with
  | nil => simp [unwrapHDF, UCtx.absorbU8, hc, bind, Except.bind] at h
  | cons b rest =>
    refine ⟨by simp [hc], ?_⟩
    simp only [unwrapHDF, UCtx.absorbU8, hc, bind, Except.bind] at h
    cases ht : unwrapHDFtail F ⟨c.spongos.absorbByte F b, rest⟩ with
    | error e => simp [ht] at h
    | ok rr =>
      simp only [ht, pure, Except.pure] at h
      cases h
      simp

/-- Witness for the amended C7 theorem at a concrete input. -/
theorem unwrapHDF_encoding_is_first_byte_witness :
    (⟨sp0, (wrapHDF F0 sp0 hdfEnc1).output⟩ : UCtx).input ≠ [] ∧
      ((unwrapHDF F0 ⟨sp0, (wrapHDF F0 sp0 hdfEnc1).output⟩ hdfDefault).toOption.get
            (by decide)).2.encoding
        = (⟨sp0, (wrapHDF F0 sp0 hdfEnc1).output⟩ : UCtx).input.headD 0 :=
  unwrapHDF_encoding_is_first_byte F0 _ hdfDefault _ (by decide)

theorem fromBE_beBytes (w n : Nat) (h : n < 256 ^ w) : fromBE (beBytes w n) = n := by
  induction w generalizing n with
  | zero =>
    simp only [pow_zero, Nat.lt_one_iff] at h
    simp [beBytes, fromBE, h]
  | succ w ih =>
    have hd : n / 256 < 256 ^ w := by
      rw [Nat.div_lt_iff_lt_mul (by norm_num : (0 : Nat) < 256)]
      have h' := h
      rw [pow_succ] at h'
      exact h'
    have hstep : fromBE (beBytes (w + 1) n)
        = fromBE (beBytes w (n / 256)) * 256 + n % 256 := by
      simp [beBytes, fromBE, List.foldl_append]
    rw [hstep, ih _ hd]
    omega

/-- Claim C9: HDF wrap is total in `payload_frame_count` — for every
value of the u32 field it emits exactly the low 22 bits into the three
frame-count wire bytes (output positions 5..7): the most significant
big-endian byte is discarded and the next is masked with `0b00111111`
(hdf.rs lines 201-208), so any count of `2^22` or more is silently
wrapped as the truncated value `count % 2^22`, never as an error. -/
theorem wrapHDF_frame_count_truncation (F : PRP) (sp : Spongos) (hdf : HDF)
    (h32 : hdf.payload_frame_count < 2 ^ 32) :
    ((wrapHDF F sp hdf).output.drop 5).take 3
        = beBytes 3 (hdf.payload_frame_count % 2 ^ 22) ∧
      (2 ^ 22 ≤ hdf.payload_frame_count →
        fromBE (((wrapHDF F sp hdf).output.drop 5).take 3) ≠ hdf.payload_frame_count) := by
  have hland : ∀ a, a < 256 → a &&& 63 = a % 64 := by decide
  have hb : (hdf.payload_frame_count / 65536) % 256 &&& 63
      = (hdf.payload_frame_count / 65536) % 256 % 64 :=
    hland _ (Nat.mod_lt _ (by norm_num))
  have hmain : ((wrapHDF F sp hdf).output.drop 5).take 3
      = beBytes 3 (hdf.payload_frame_count % 2 ^ 22) := by
    cases hl : hdf.linked_msg_address <;> cases hp : hdf.publisher <;>
      simp [wrapHDF, WCtx.absorbU8, WCtx.skipBytes, WCtx.absorbExternalU8,
        WCtx.absorbMaybe, WCtx.absorbBytes, WCtx.maskBytes, WCtx.maskIdentifierW,
        WCtx.skipSize, WCtx.commit, WCtx.squeezeMacW, hl, hp, beBytes, hb] <;>
      omega
  refine ⟨hmain, fun hge => ?_⟩
  rw [hmain, fromBE_beBytes 3 _ (by
    have := Nat.mod_lt hdf.payload_frame_count (show 0 < 2 ^ 22 by norm_num)
    omega)]
  have := Nat.mod_lt hdf.payload_frame_count (show 0 < 2 ^ 22 by norm_num)
  omega

/-- A header whose frame count exceeds the 22-bit range. -/
def hdfBig : HDF :=
  { hdfDefault with payload_frame_count := 2 ^ 22 + 5 }

/-- Witness for C9 at a concrete out-of-range frame count. -/
theorem wrapHDF_frame_count_truncation_witness :
    ((wrapHDF F0 sp0 hdfBig).output.drop 5).take 3
        = beBytes 3 (hdfBig.payload_frame_count % 2 ^ 22) ∧
      (2 ^ 22 ≤ hdfBig.payload_frame_count →
        fromBE (((wrapHDF F0 sp0 hdfBig).output.drop 5).take 3) ≠ hdfBig.payload_frame_count) :=
  wrapHDF_frame_count_truncation F0 sp0 hdfBig (by decide)

/-- The `Identifier` sum of `iota-streams-app` used by the Keyload codec:
an Ed25519 public key or a pre-shared-key id. -/
inductive CIdentifier
  | EdPubKey (pk : List Nat)
  | PskId (pskid : List Nat)
deriving DecidableEq, Repr

/-- Structural well-formedness: the payloads carry their declared widths
(32-byte public key, 16-byte psk id). -/
def CIdentifier.WF : CIdentifier → Prop
  | .EdPubKey pk => pk.length = 32
  | .PskId p => p.length = 16

/-- Modelled from the spec: `Identifier` wire size in the sizeof context
(variant tag byte plus fixed payload, section 4.E). -/
def cIdSizeof : CIdentifier → Nat
  | .EdPubKey _ => 1 + 32
  | .PskId _ => 1 + 16

/-- Keyload branch wire size per recipient kind: 32 masked session-key
bytes for a PSK branch; 32 ephemeral public-key bytes plus 32 masked
session-key bytes for an X25519 branch. -/
def CIdentifier.branchSize : CIdentifier → Nat
  | .EdPubKey _ => 64
  | .PskId _ => 32

/-- Modelled from the spec: `Identifier::wrap` — masked variant tag
(0 = Ed25519 public key, 1 = psk id) then the masked payload. -/
def WCtx.maskCIdentifier (F : PRP) (id : CIdentifier) (c : WCtx) : WCtx :=
  match id with
  | .EdPubKey pk => (c.maskBytes F [0]).maskBytes F pk
  | .PskId p => (c.maskBytes F [1]).maskBytes F p

/-- Modelled from the spec: `Identifier::unwrap_new` — masked variant
tag then the masked fixed-width payload. -/
def UCtx.maskCIdentifierU (F : PRP) (c : UCtx) : Except Err (CIdentifier × UCtx) := do
  let t ← c.maskU8 F
  match t.1 with
  | 0 => do
    let r ← t.2.maskBytes F 32
    .ok (.EdPubKey r.1, r.2)
  | 1 => do
    let r ← t.2.maskBytes F 16
    .ok (.PskId r.1, r.2)
  | _ => .error .unknownVariant

/-- One recipient of `ContentWrap::wrap` (keyload.rs lines 159-174):
wrap the identifier, then fork; inside the fork a PSK branch absorbs the
external 32-byte psk, commits and masks the session key, while an
Ed25519 branch runs the x25519 command — write the ephemeral public key,
absorb the Diffie-Hellman shared secret, commit and mask the session key
(`<[u8; 32]>::try_from(store_id)` gates the X25519 public key).  The
fork restores the pre-fork sponge but keeps the emitted bytes. -/
def wrapKeyloadEntry (F : PRP) (dh : List Nat → List Nat → List Nat)
    (sessionKey : List Nat) (eph : List Nat × List Nat) (c : WCtx)
    (entry : CIdentifier × List Nat) : Except Err WCtx := do
  let c1 := c.maskCIdentifier F entry.1
  let body ←
    match entry.1 with
    | .PskId _ =>
      Except.ok (((c1.absorbExternal F entry.2).commit F).maskBytes F sessionKey)
    | .EdPubKey _ =>
      if entry.2.length = 32 then
        let ce := c1.absorbBytes F eph.2
        let cd : WCtx := ⟨ce.spongos.absorb F (dh eph.1 entry.2), ce.output⟩
        Except.ok ((cd.commit F).maskBytes F sessionKey)
      else Except.error .keyMaterialLength
  .ok ⟨c1.spongos, body.output⟩

/-- The `repeated` fold over the recipient list on the wrap side,
threading the index used to draw each ephemeral keypair. -/
def wrapKeyloadEntries (F : PRP) (dh : List Nat → List Nat → List Nat)
    (sessionKey : List Nat) (ephAt : Nat → List Nat × List Nat) :
    Nat → List (CIdentifier × List Nat) → WCtx → Except Err WCtx
  | _, [], c => .ok c
  | i, e :: rest, c => do
    let c' ← wrapKeyloadEntry F dh sessionKey (ephAt i) c e
    wrapKeyloadEntries F dh sessionKey ephAt (i + 1) rest c'

/-- `ContentWrap::wrap` for Keyload (keyload.rs lines 147-182): join the
stored link spongos; absorb the 16-byte nonce; fork over the recipient
list (absorb `Size(len)`, the per-recipient entries, commit, squeeze the
external 64-byte id hash); absorb the external session key; fork again
to absorb the external id hash and emit the 64-byte Ed25519 signature
over the squeezed external digest; final commit. -/
def keyloadWrap (F : PRP) (dh : List Nat → List Nat → List Nat)
    (sign : List Nat → List Nat → List Nat) (ephAt : Nat → List Nat × List Nat)
    (storedSp : Spongos) (link nonce key : List Nat)
    (keys : List (CIdentifier × List Nat)) (sigKp : List Nat) : Except Err WCtx := do
  let c0 : WCtx := ⟨joinSponge F storedSp link, []⟩
  let c1 := c0.absorbBytes F nonce
  let ca := c1.absorbSize F keys.length
  let cb ← wrapKeyloadEntries F dh key ephAt 0 keys ca
  let cc := cb.commit F
  let idHash := (cc.spongos.squeeze F 64).2
  let c2 : WCtx := ⟨c1.spongos, cc.output⟩
  let c3 := c2.absorbExternal F key
  let fsp := c3.spongos.absorb F idHash
  let hash := (fsp.squeeze F 64).2
  let c4 : WCtx := ⟨c3.spongos, c3.output ++ sign sigKp hash⟩
  .ok (c4.commit F)

/-- One recipient of `ContentSizeof::sizeof` (keyload.rs lines 115-131):
identifier bytes plus the forked branch — `mask(key)` only for a PSK
recipient (the psk itself is external), the 64-byte x25519 emission for
an Ed25519 recipient; the same `try_from` gate as wrap applies. -/
def keyloadSizeofEntries : List (CIdentifier × List Nat) → Except Err Nat
  | [] => .ok 0
  | (id, material) :: rest => do
    let branch ←
      match id with
      | .PskId _ => Except.ok 32
      | .EdPubKey _ =>
        if material.length = 32 then Except.ok 64 else Except.error .keyMaterialLength
    let r ← keyloadSizeofEntries rest
    .ok (cIdSizeof id + branch + r)

/-- `ContentSizeof::sizeof` for Keyload (keyload.rs lines 108-137): join
(no bytes) + 16-byte nonce + `Size(len)` + the recipient entries + the
external session key (no bytes) + the forked 64-byte Ed25519 signature +
commit (no bytes).  The external squeeze/absorb of the id hash present
in wrap does not appear here. -/
def keyloadSizeof (keys : List (CIdentifier × List Nat)) : Except Err Nat := do
  let e ← keyloadSizeofEntries keys
  .ok (16 + (1 + sizeLength keys.length) + e + 64)

/-- The mutable state of `ContentUnwrap` during the recipient loop
(keyload.rs struct fields `key_ids`, `key`, `ke_pk`, plus the context). -/
structure KState where
  ctx : UCtx
  keyIds : List CIdentifier
  key : Option (List Nat)
  kePk : List Nat
deriving DecidableEq, Repr

/-- Whether the local stores hold the branch material for a recipient
identifier: the PSK store is consulted for a `PskId`, the X25519
secret-key store for an `EdPubKey` (keyload.rs lines 248 and 264). -/
def lookupFound (psks sks : CIdentifier → Option (List Nat)) (id : CIdentifier) : Bool :=
  match id with
  | .PskId _ => (psks id).isSome
  | .EdPubKey _ => (sks id).isSome

/-- One recipient of `ContentUnwrap::unwrap` (keyload.rs lines 244-281):
decode the identifier, then fork.  A found PSK branch absorbs the
external psk, commits and masks the 32-byte session key; a found X25519
branch runs the unwrap x25519 command of
`iota-streams-ddml/src/command/unwrap/x25519.rs` (absorb the 32-byte
ephemeral public key, absorb the Diffie-Hellman secret, commit, mask the
32-byte key) and caches the recipient public key.  A missing branch
drops exactly 32 (PSK) or 64 (X25519) bytes.  The identifier is pushed
onto `key_ids` in every case, and the fork restores the pre-fork sponge. -/
def unwrapKeyloadEntry (F : PRP) (dh : List Nat → List Nat → List Nat)
    (psks sks : CIdentifier → Option (List Nat)) (st : KState) : Except Err KState := do
  let r ← st.ctx.maskCIdentifierU F
  let id := r.1
  let c := r.2
  match id with
  | .PskId _ =>
    match psks id with
    | some psk => do
      let c1 := (c.absorbExternal F psk).commit F
      let k ← c1.maskBytes F 32
      .ok ⟨⟨c.spongos, k.2.input⟩, st.keyIds ++ [id], some k.1, st.kePk⟩
    | none => do
      let c1 ← c.dropBytes 32
      .ok ⟨⟨c.spongos, c1.input⟩, st.keyIds ++ [id], st.key, st.kePk⟩
  | .EdPubKey pk =>
    match sks id with
    | some sk => do
      let e ← c.absorbBytes F 32
      let c1 : UCtx := ⟨e.2.spongos.absorb F (dh sk e.1), e.2.input⟩
      let k ← (c1.commit F).maskBytes F 32
      .ok ⟨⟨c.spongos, k.2.input⟩, st.keyIds ++ [id], some k.1, pk⟩
    | none => do
      let c1 ← c.dropBytes 64
      .ok ⟨⟨c.spongos, c1.input⟩, st.keyIds ++ [id], st.key, st.kePk⟩

/-- The `repeated(repeated_keys, ...)` loop of `ContentUnwrap::unwrap`:
the wire-decoded count gives the number of iterations. -/
def unwrapKeyloadEntries (F : PRP) (dh : List Nat → List Nat → List Nat)
    (psks sks : CIdentifier → Option (List Nat)) :
    Nat → KState → Except Err KState
  | 0, st => .ok st
  | n + 1, st => do
    let st' ← unwrapKeyloadEntry F dh psks sks st
    unwrapKeyloadEntries F dh psks sks n st'

/-- Everything in `ContentUnwrap::unwrap` (keyload.rs lines 231-285) up
to and including the recipient fork: join the stored link spongos,
absorb the 16-byte nonce, then inside the fork absorb `Size` (the
recipient count), run the entries, commit and squeeze the external
64-byte id hash; the fork restores the pre-fork sponge.  Returns the
loop state, the nonce and the squeezed id hash. -/
def keyloadUnwrapLoop (F : PRP) (dh : List Nat → List Nat → List Nat)
    (psks sks : CIdentifier → Option (List Nat)) (storedSp : Spongos)
    (link input : List Nat) : Except Err (KState × List Nat × List Nat) := do
  let c0 : UCtx := ⟨joinSponge F storedSp link, input⟩
  let nr ← c0.absorbBytes F 16
  let c1 := nr.2
  let szr ← c1.absorbSize F
  let st ← unwrapKeyloadEntries F dh psks sks szr.1
    ⟨szr.2, [], none, List.replicate 32 0⟩
  let cc := st.ctx.commit F
  let sq := cc.spongos.squeeze F 64
  .ok ({ st with ctx := ⟨c1.spongos, cc.input⟩ }, nr.1, sq.2)

/-- The result of `ContentUnwrap::unwrap`: the final context plus the
fields the struct holds afterwards. -/
structure KOut where
  ctx : UCtx
  nonce : List Nat
  keyIds : List CIdentifier
  key : Option (List Nat)
  kePk : List Nat
deriving DecidableEq, Repr

/-- `ContentUnwrap::unwrap` for Keyload (keyload.rs lines 231-295): run
the recipient loop; then only if a session key was recovered, absorb the
external key, fork to absorb the external id hash and verify the 64-byte
Ed25519 signature over the squeezed external digest, and commit;
otherwise return Ok with no key and no signature read ("Allow key not
found, no key situation must be handled outside"). -/
def keyloadUnwrap (F : PRP) (dh : List Nat → List Nat → List Nat)
    (verify : List Nat → List Nat → List Nat → Bool) (sigPk : List Nat)
    (psks sks : CIdentifier → Option (List Nat)) (storedSp : Spongos)
    (link input : List Nat) : Except Err KOut := do
  let r ← keyloadUnwrapLoop F dh psks sks storedSp link input
  let st := r.1
  let nonce := r.2.1
  let idHash := r.2.2
  match st.key with
  | some k =>
    let c2 := st.ctx.absorbExternal F k
    let fsp := c2.spongos.absorb F idHash
    let sq := fsp.squeeze F 64
    let sr ← (UCtx.mk sq.1 c2.input).readBytes 64
    if verify sigPk sq.2 sr.1 then
      .ok ⟨(UCtx.mk c2.spongos sr.2.input).commit F, nonce, st.keyIds, st.key, st.kePk⟩
    else .error .signatureInvalid
  | none => .ok ⟨st.ctx, nonce, st.keyIds, none, st.kePk⟩

@[simp] theorem WCtx.absorbBytes_output (F : PRP) (bs : List Nat) (c : WCtx) :
    (c.absorbBytes F bs).output = c.output ++ bs := rfl

@[simp] theorem WCtx.absorbU8_output (F : PRP) (b : Nat) (c : WCtx) :
    (c.absorbU8 F b).output = c.output ++ [b] := rfl

@[simp] theorem WCtx.maskBytes_output (F : PRP) (bs : List Nat) (c : WCtx) :
    (c.maskBytes F bs).output = c.output ++ (c.spongos.encrypt F bs).2 := rfl

@[simp] theorem WCtx.skipBytes_output (bs : List Nat) (c : WCtx) :
    (c.skipBytes bs).output = c.output ++ bs := rfl

@[simp] theorem WCtx.absorbExternal_output (F : PRP) (bs : List Nat) (c : WCtx) :
    (c.absorbExternal F bs).output = c.output := rfl

@[simp] theorem WCtx.absorbExternalU8_output (F : PRP) (b : Nat) (c : WCtx) :
    (c.absorbExternalU8 F b).output = c.output := rfl

@[simp] theorem WCtx.commit_output (F : PRP) (c : WCtx) :
    (c.commit F).output = c.output := rfl

@[simp] theorem WCtx.squeezeMacW_output (F : PRP) (n : Nat) (c : WCtx) :
    (c.squeezeMacW F n).output = c.output ++ (c.spongos.squeeze F n).2 := rfl

@[simp] theorem WCtx.absorbSize_output (F : PRP) (n : Nat) (c : WCtx) :
    (c.absorbSize F n).output = c.output ++ encodeSize n := rfl

@[simp] theorem WCtx.skipSize_output (n : Nat) (c : WCtx) :
    (c.skipSize n).output = c.output ++ encodeSize n := rfl

theorem UCtx.readBytes_spec (n : Nat) (c : UCtx) (r : List Nat × UCtx)
    (h : c.readBytes n = .ok r) :
    c.input.length = r.2.input.length + n ∧ r.1.length = n := by
  simp only [UCtx.readBytes] at h
  split at h
  · cases h
    constructor
    · simp
      omega
    · simp
      omega
  · simp at h

theorem UCtx.maskBytes_spec (F : PRP) (n : Nat) (c : UCtx) (r : List Nat × UCtx)
    (h : c.maskBytes F n = .ok r) :
    c.input.length = r.2.input.length + n ∧ r.1.length = n := by
  simp only [UCtx.maskBytes, bind, Except.bind] at h
  cases hr : c.readBytes n with
  | error e => simp [hr] at h
  | ok rr =>
    simp only [hr] at h
    cases h
    have := UCtx.readBytes_spec n c rr hr
    constructor
    · simp
      omega
    · simp [Spongos.decrypt_length]
      omega

theorem UCtx.absorbBytes_spec (F : PRP) (n : Nat) (c : UCtx) (r : List Nat × UCtx)
    (h : c.absorbBytes F n = .ok r) :
    c.input.length = r.2.input.length + n ∧ r.1.length = n := by
  simp only [UCtx.absorbBytes, bind, Except.bind] at h
  cases hr : c.readBytes n with
  | error e => simp [hr] at h
  | ok rr =>
    simp only [hr] at h
    cases h
    have := UCtx.readBytes_spec n c rr hr
    constructor
    · simp
      omega
    · simp
      omega

theorem UCtx.dropBytes_spec (n : Nat) (c : UCtx) (c' : UCtx)
    (h : c.dropBytes n = .ok c') :
    c.input.length = c'.input.length + n := by
  simp only [UCtx.dropBytes, Except.map] at h
  cases hr : c.readBytes n with
  | error e => simp [hr] at h
  | ok rr =>
    simp only [hr] at h
    cases h
    exact (UCtx.readBytes_spec n c rr hr).1

theorem UCtx.maskU8_spec (F : PRP) (c : UCtx) (r : Nat × UCtx)
    (h : c.maskU8 F = .ok r) :
    c.input.length = r.2.input.length + 1 := by
  cases hc : c.input with
  | nil => simp [UCtx.maskU8, hc] at h
  | cons b rest =>
    simp only [UCtx.maskU8, hc] at h
    cases h
    simp [hc]

theorem UCtx.maskCIdentifierU_spec (F : PRP) (c : UCtx) (r : CIdentifier × UCtx)
    (h : c.maskCIdentifierU F = .ok r) :
    c.input.length = r.2.input.length + cIdSizeof r.1 := by
  simp only [UCtx.maskCIdentifierU, bind, Except.bind] at h
  cases ht : c.maskU8 F with
  | error e => simp [ht] at h
  | ok t =>
    simp only [ht] at h
    have h1 := UCtx.maskU8_spec F c t ht
    match hm : t.1, h with
    | 0, h =>
      cases hr : t.2.maskBytes F 32 with
      | error e => simp [hr] at h
      | ok rr =>
        simp only [hr, pure, Except.pure] at h
        cases h
        have h2 := UCtx.maskBytes_spec F 32 t.2 rr hr
        simp [cIdSizeof]
        omega
    | 1, h =>
      cases hr : t.2.maskBytes F 16 with
      | error e => simp [hr] at h
      | ok rr =>
        simp only [hr, pure, Except.pure] at h
        cases h
        have h2 := UCtx.maskBytes_spec F 16 t.2 rr hr
        simp [cIdSizeof]
        omega
    | v + 2, h => simp at h

theorem unwrapKeyloadEntry_spec (F : PRP) (dh : List Nat → List Nat → List Nat)
    (psks sks : CIdentifier → Option (List Nat)) (st st' : KState)
    (h : unwrapKeyloadEntry F dh psks sks st = .ok st') :
    ∃ id, st'.keyIds = st.keyIds ++ [id] ∧
      st'.key.isSome = (st.key.isSome || lookupFound psks sks id) ∧
      st.ctx.input.length = st'.ctx.input.length + cIdSizeof id + id.branchSize := by
  simp only [unwrapKeyloadEntry, bind, Except.bind] at h
  cases hid : st.ctx.maskCIdentifierU F with
  | error e => simp [hid] at h
  | ok r =>
    simp only [hid] at h
    have hidlen := UCtx.maskCIdentifierU_spec F st.ctx r hid
    refine ⟨r.1, ?_⟩
    match hv : r.1, h with
    | .PskId p, h =>
      rw [hv] at hidlen
      cases hps : psks (.PskId p) with
      | some psk =>
        simp only [hps] at h
        cases hm : (((r.2.absorbExternal F psk).commit F).maskBytes F 32) with
        | error e => simp [hm] at h
        | ok k =>
          simp only [hm, pure, Except.pure] at h
          cases h
          have hkl := UCtx.maskBytes_spec F 32 _ k hm
          simp only [UCtx.absorbExternal, UCtx.commit] at hkl
          simp [lookupFound, hps, CIdentifier.branchSize]
          omega
      | none =>
        simp only [hps] at h
        cases hd : r.2.dropBytes 32 with
        | error e => simp [hd] at h
        | ok c1 =>
          simp only [hd, pure, Except.pure] at h
          cases h
          have hdl := UCtx.dropBytes_spec 32 r.2 c1 hd
          simp [lookupFound, hps, CIdentifier.branchSize]
          omega
    | .EdPubKey pk, h =>
      rw [hv] at hidlen
      cases hks : sks (.EdPubKey pk) with
      | some sk =>
        simp only [hks] at h
        cases he : r.2.absorbBytes F 32 with
        | error e => simp [he] at h
        | ok e =>
          simp only [he] at h
          cases hm : ((UCtx.mk (e.2.spongos.absorb F (dh sk e.1)) e.2.input).commit F).maskBytes F 32 with
          | error er => simp [hm] at h
          | ok k =>
            simp only [hm, pure, Except.pure] at h
            cases h
            have hel := UCtx.absorbBytes_spec F 32 r.2 e he
            have hkl := UCtx.maskBytes_spec F 32 _ k hm
            simp only [UCtx.commit] at hkl
            simp [lookupFound, hks, CIdentifier.branchSize]
            omega
      | none =>
        simp only [hks] at h
        cases hd : r.2.dropBytes 64 with
        | error e => simp [hd] at h
        | ok c1 =>
          simp only [hd, pure, Except.pure] at h
          cases h
          have hdl := UCtx.dropBytes_spec 64 r.2 c1 hd
          simp [lookupFound, hks, CIdentifier.branchSize]
          omega

theorem unwrapKeyloadEntries_spec (F : PRP) (dh : List Nat → List Nat → List Nat)
    (psks sks : CIdentifier → Option (List Nat)) (n : Nat) (st st' : KState)
    (h : unwrapKeyloadEntries F dh psks sks n st = .ok st') :
    ∃ ids, st'.keyIds = st.keyIds ++ ids ∧ ids.length = n ∧
      st'.key.isSome = (st.key.isSome || ids.any (lookupFound psks sks)) := by
  induction n generalizing st with
  | zero =>
    simp only [unwrapKeyloadEntries] at h
    cases h
    exact ⟨[], by simp⟩
  | succ n ih =>
    simp only [unwrapKeyloadEntries, bind, Except.bind] at h
    cases he : unwrapKeyloadEntry F dh psks sks st with
    | error e => simp [he] at h
    | ok st1 =>
      simp only [he] at h
      obtain ⟨id, hids, hkey, _⟩ := unwrapKeyloadEntry_spec F dh psks sks st st1 he
      obtain ⟨ids, hids', hlen, hkey'⟩ := ih st1 h
      refine ⟨id :: ids, ?_, by simp [hlen], ?_⟩
      · simp [hids', hids]
      · simp [hkey', hkey, Bool.or_assoc]

theorem wrapKeyloadEntry_len (F : PRP) (dh : List Nat → List Nat → List Nat)
    (key : List Nat) (eph : List Nat × List Nat) (c : WCtx) (id : CIdentifier)
    (m : List Nat) (c' : WCtx) (hid : id.WF) (hkey : key.length = 32)
    (heph : eph.2.length = 32)
    (h : wrapKeyloadEntry F dh key eph c (id, m) = .ok c') :
    c'.output.length = c.output.length + cIdSizeof id + id.branchSize := by
  cases id with
  | PskId p =>
    simp only [CIdentifier.WF] at hid
    simp only [wrapKeyloadEntry, WCtx.maskCIdentifier, bind, Except.bind, pure,
      Except.pure] at h
    cases h
    simp [Spongos.encrypt_length, cIdSizeof, CIdentifier.branchSize, hid, hkey]
  | EdPubKey pk =>
    simp only [CIdentifier.WF] at hid
    simp only [wrapKeyloadEntry, WCtx.maskCIdentifier, bind, Except.bind, pure,
      Except.pure] at h
    split at h
    · cases h
      simp [Spongos.encrypt_length, cIdSizeof, CIdentifier.branchSize, hid, hkey, heph]
    · simp at h

/-- Claim C3: per-recipient keyload branches stay aligned whether or not
the local material is found.  Part one: the wrap side emits exactly
`cIdSizeof id + branchSize id` bytes per recipient entry (identifier
bytes plus 32 for a PSK branch / 64 for an X25519 branch).  Part two:
the unwrap side consumes exactly the same count for the decoded
identifier under ANY stores — in particular, the drop of 32 (PSK) or 64
(X25519) bytes on a missing branch leaves the stream at the same
position a recipient holding the material would reach. -/
theorem keyload_dead_branch_alignment :
    (∀ (F : PRP) (dh : List Nat → List Nat → List Nat) (key : List Nat)
        (eph : List Nat × List Nat) (c : WCtx) (id : CIdentifier) (m : List Nat)
        (c' : WCtx), id.WF → key.length = 32 → eph.2.length = 32 →
        wrapKeyloadEntry F dh key eph c (id, m) = .ok c' →
        c'.output.length = c.output.length + cIdSizeof id + id.branchSize) ∧
      (∀ (F : PRP) (dh : List Nat → List Nat → List Nat)
          (psks sks : CIdentifier → Option (List Nat)) (st st' : KState),
        unwrapKeyloadEntry F dh psks sks st = .ok st' →
        ∃ id, st'.keyIds = st.keyIds ++ [id] ∧
          st.ctx.input.length = st'.ctx.input.length + cIdSizeof id + id.branchSize) := by
  constructor
  · intro F dh key eph c id m c' hid hkey heph h
    exact wrapKeyloadEntry_len F dh key eph c id m c' hid hkey heph h
  · intro F dh psks sks st st' h
    obtain ⟨id, h1, _, h3⟩ := unwrapKeyloadEntry_spec F dh psks sks st st' h
    exact ⟨id, h1, h3⟩

theorem keyloadUnwrapLoop_spec (F : PRP) (dh : List Nat → List Nat → List Nat)
    (psks sks : CIdentifier → Option (List Nat)) (sp : Spongos)
    (link input : List Nat) (r : KState × List Nat × List Nat)
    (h : keyloadUnwrapLoop F dh psks sks sp link input = .ok r) :
    r.1.key.isSome = r.1.keyIds.any (lookupFound psks sks) := by
  simp only [keyloadUnwrapLoop, bind, Except.bind] at h
  cases hn : (⟨joinSponge F sp link, input⟩ : UCtx).absorbBytes F 16 with
  | error e => simp [hn] at h
  | ok nr =>
    simp only [hn] at h
    cases hs : nr.2.absorbSize F with
    | error e => simp [hs] at h
    | ok szr =>
      simp only [hs] at h
      split at h
      · simp at h
      · rename_i st he
        cases h
        obtain ⟨ids, hids, _, hkey⟩ :=
          unwrapKeyloadEntries_spec F dh psks sks szr.1 _ st he
        simp only [List.nil_append] at hids
        simp only [Option.isSome_none, Bool.false_or] at hkey
        simp [hids, hkey]

/-- Claim C4: the outer Ed25519 verification of keyload unwrap is
attempted iff a session key was recovered.  Part one: whenever unwrap
succeeds with `key = none`, the verifier was never consulted — the same
output arises for every verification function — so the absence of a key
is never a signature failure at this layer.  Part two (the converse):
under the always-failing verifier a successful unwrap forces
`key = none`, i.e. whenever a key was recovered the verifier was
consulted. -/
theorem keyload_signature_check_iff_key :
    (∀ (F : PRP) (dh : List Nat → List Nat → List Nat)
        (v v' : List Nat → List Nat → List Nat → Bool) (sigPk : List Nat)
        (psks sks : CIdentifier → Option (List Nat)) (sp : Spongos)
        (link input : List Nat) (out : KOut),
        keyloadUnwrap F dh v sigPk psks sks sp link input = .ok out →
        out.key = none →
        keyloadUnwrap F dh v' sigPk psks sks sp link input = .ok out) ∧
      (∀ (F : PRP) (dh : List Nat → List Nat → List Nat) (sigPk : List Nat)
          (psks sks : CIdentifier → Option (List Nat)) (sp : Spongos)
          (link input : List Nat) (out : KOut),
        keyloadUnwrap F dh (fun _ _ _ => false) sigPk psks sks sp link input = .ok out →
        out.key = none) := by
  constructor
  · intro F dh v v' sigPk psks sks sp link input out h hnone
    simp only [keyloadUnwrap, bind, Except.bind] at h ⊢
    cases hr : keyloadUnwrapLoop F dh psks sks sp link input with
    | error e => simp [hr] at h
    | ok r =>
      simp only [hr] at h ⊢
      cases hk : r.1.key with
      | none =>
        simp only [hk] at h ⊢
        exact h
      | some k =>
        exfalso
        simp only [hk] at h
        split at h
        · simp at h
        · split at h
          · cases h
            simp [hk] at hnone
          · simp at h
  · intro F dh sigPk psks sks sp link input out h
    simp only [keyloadUnwrap, bind, Except.bind] at h
    cases hr : keyloadUnwrapLoop F dh psks sks sp link input with
    | error e => simp [hr] at h
    | ok r =>
      simp only [hr] at h
      cases hk : r.1.key with
      | none =>
        simp only [hk] at h
        cases h
        rfl
      | some k =>
        simp only [hk] at h
        split at h
        · simp at h
        · simp at h

/-- Claim C5: after a successful keyload unwrap, `key_ids` is exactly
the list of recipient identifiers decoded from the wire, one per entry
of the wire-decoded recipient count and in wire order (the loop pushes
each decoded identifier whether or not its material was found), and
`key` is Some iff the material of at least one recorded identifier was
present in the local stores.  Part one states the key/identifier
relation for the full unwrap; part two states that the loop appends
exactly `n` decoded identifiers, found or not, in order. -/
theorem keyload_key_ids_exact :
    (∀ (F : PRP) (dh : List Nat → List Nat → List Nat)
        (v : List Nat → List Nat → List Nat → Bool) (sigPk : List Nat)
        (psks sks : CIdentifier → Option (List Nat)) (sp : Spongos)
        (link input : List Nat) (out : KOut),
        keyloadUnwrap F dh v sigPk psks sks sp link input = .ok out →
        out.key.isSome = out.keyIds.any (lookupFound psks sks)) ∧
      (∀ (F : PRP) (dh : List Nat → List Nat → List Nat)
          (psks sks : CIdentifier → Option (List Nat)) (n : Nat) (st st' : KState),
        unwrapKeyloadEntries F dh psks sks n st = .ok st' →
        ∃ ids, st'.keyIds = st.keyIds ++ ids ∧ ids.length = n ∧
          st'.key.isSome = (st.key.isSome || ids.any (lookupFound psks sks))) := by
  constructor
  · intro F dh v sigPk psks sks sp link input out h
    simp only [keyloadUnwrap, bind, Except.bind] at h
    cases hr : keyloadUnwrapLoop F dh psks sks sp link input with
    | error e => simp [hr] at h
    | ok r =>
      simp only [hr] at h
      have hloop := keyloadUnwrapLoop_spec F dh psks sks sp link input r hr
      cases hk : r.1.key with
      | none =>
        simp only [hk] at h
        cases h
        simpa [hk] using hloop
      | some k =>
        simp only [hk] at h
        split at h
        · simp at h
        · split at h
          · cases h
            simpa [hk] using hloop
          · simp at h
  · intro F dh psks sks n st st' h
    exact unwrapKeyloadEntries_spec F dh psks sks n st st' h

/-- A concrete Diffie-Hellman stand-in for concrete runs (the real X25519
lives in an external crate; the embedded codecs take it as a parameter). -/
def dh0 : List Nat → List Nat → List Nat := fun _ _ => List.replicate 32 7

/-- A concrete 64-byte signing stand-in for concrete runs. -/
def sign0 : List Nat → List Nat → List Nat := fun _ _ => List.replicate 64 9

/-- The always-accepting verifier, for concrete runs. -/
def vTrue : List Nat → List Nat → List Nat → Bool := fun _ _ _ => true

/-- A concrete 32-byte session key. -/
def key32 : List Nat := List.replicate 32 4

/-- A concrete 32-byte pre-shared key. -/
def psk32 : List Nat := List.replicate 32 1

/-- A second concrete 32-byte pre-shared key. -/
def psk32b : List Nat := List.replicate 32 2

/-- A concrete 16-byte psk id. -/
def pskid16 : List Nat := List.replicate 16 170

/-- A second concrete 16-byte psk id. -/
def pskid16b : List Nat := List.replicate 16 187

/-- A concrete ephemeral X25519 keypair (secret, public). -/
def eph0 : List Nat × List Nat := (List.replicate 32 2, List.replicate 32 6)

/-- The ephemeral supply for concrete wrap runs. -/
def ephAt0 : Nat → List Nat × List Nat := fun _ => eph0

/-- A concrete 16-byte nonce. -/
def nonce16 : List Nat := List.replicate 16 3

/-- A concrete author signing keypair / public key stand-in. -/
def sigKp0 : List Nat := List.replicate 32 5

/-- The empty psk / x25519-secret store. -/
def storeEmpty : CIdentifier → Option (List Nat) := fun _ => none

/-- A concrete PSK recipient entry. -/
def pskEntryA : CIdentifier × List Nat := (.PskId pskid16, psk32)

/-- A second concrete PSK recipient entry. -/
def pskEntryB : CIdentifier × List Nat := (.PskId pskid16b, psk32b)

/-- A psk store holding the material of `pskEntryA` only. -/
def psksA : CIdentifier → Option (List Nat) :=
  fun id => if id = .PskId pskid16 then some psk32 else none

/-- The wire bytes of one wrapped PSK recipient entry. -/
def entryWireA : List Nat :=
  match wrapKeyloadEntry F0 dh0 key32 eph0 ⟨sp0, []⟩ pskEntryA with
  | .ok c => c.output
  | .error _ => []

/-- A concrete wrapped keyload with a single PSK recipient. -/
def kinput1 : List Nat :=
  match keyloadWrap F0 dh0 sign0 ephAt0 sp0 [] nonce16 key32 [pskEntryA] sigKp0 with
  | .ok c => c.output
  | .error _ => []

/-- A concrete wrapped keyload with two PSK recipients. -/
def kinput2 : List Nat :=
  match keyloadWrap F0 dh0 sign0 ephAt0 sp0 [] nonce16 key32 [pskEntryA, pskEntryB] sigKp0 with
  | .ok c => c.output
  | .error _ => []

/-- The loop state of the keyload unwrap of `kinput2` as it stands right
before the recipient entries. -/
def kst2 : KState :=
  match (UCtx.mk (joinSponge F0 sp0 []) kinput2).absorbBytes F0 16 with
  | .ok nr =>
    match nr.2.absorbSize F0 with
    | .ok szr => ⟨szr.2, [], none, List.replicate 32 0⟩
    | .error _ => ⟨⟨sp0, []⟩, [], none, []⟩
  | .error _ => ⟨⟨sp0, []⟩, [], none, []⟩

/-- Witness for C3: a concrete PSK entry wrapped from an empty output
(49 emitted bytes) and unwrapped against empty stores (49 consumed
bytes, identifier recorded, dead branch dropped). -/
theorem keyload_dead_branch_alignment_witness :
    (((wrapKeyloadEntry F0 dh0 key32 eph0 ⟨sp0, []⟩ pskEntryA).toOption.get
          (by decide)).output.length
        = (WCtx.mk sp0 []).output.length + cIdSizeof pskEntryA.1 + pskEntryA.1.branchSize) ∧
      (∃ id, ((unwrapKeyloadEntry F0 dh0 storeEmpty storeEmpty
              ⟨⟨sp0, entryWireA⟩, [], none, List.replicate 32 0⟩).toOption.get
              (by decide)).keyIds
            = (⟨⟨sp0, entryWireA⟩, [], none, List.replicate 32 0⟩ : KState).keyIds ++ [id] ∧
          (⟨⟨sp0, entryWireA⟩, [], none, List.replicate 32 0⟩ : KState).ctx.input.length
            = ((unwrapKeyloadEntry F0 dh0 storeEmpty storeEmpty
                  ⟨⟨sp0, entryWireA⟩, [], none, List.replicate 32 0⟩).toOption.get
                  (by decide)).ctx.input.length + cIdSizeof id + id.branchSize) :=
  ⟨keyload_dead_branch_alignment.1 F0 dh0 key32 eph0 ⟨sp0, []⟩ pskEntryA.1 pskEntryA.2 _
      (by simp [pskEntryA, CIdentifier.WF, pskid16]) (by simp [key32]) (by simp [eph0])
      (by decide),
    keyload_dead_branch_alignment.2 F0 dh0 storeEmpty storeEmpty _ _ (by decide)⟩

/-- Witness for C4: the keyload `kinput1` unwrapped against empty stores
recovers no key, returns Ok under the always-failing verifier just as
under the always-accepting one, and its key is none. -/
theorem keyload_signature_check_iff_key_witness :
    (keyloadUnwrap F0 dh0 (fun _ _ _ => false) sigKp0 storeEmpty storeEmpty sp0 [] kinput1
        = .ok ((keyloadUnwrap F0 dh0 vTrue sigKp0 storeEmpty storeEmpty sp0 [] kinput1).toOption.get
            (by decide))) ∧
      ((keyloadUnwrap F0 dh0 (fun _ _ _ => false) sigKp0 storeEmpty storeEmpty sp0 []
            kinput1).toOption.get (by decide)).key = none :=
  ⟨keyload_signature_check_iff_key.1 F0 dh0 vTrue (fun _ _ _ => false) sigKp0 storeEmpty
      storeEmpty sp0 [] kinput1 _ (by decide) (by decide),
    keyload_signature_check_iff_key.2 F0 dh0 sigKp0 storeEmpty storeEmpty sp0 [] kinput1 _
      (by decide)⟩

/-- Witness for C5: the two-recipient keyload `kinput2` unwrapped with
only the first psk present yields both recorded identifiers and a
recovered key. -/
theorem keyload_key_ids_exact_witness :
    (((keyloadUnwrap F0 dh0 vTrue sigKp0 psksA storeEmpty sp0 [] kinput2).toOption.get
          (by decide)).key.isSome
        = ((keyloadUnwrap F0 dh0 vTrue sigKp0 psksA storeEmpty sp0 [] kinput2).toOption.get
            (by decide)).keyIds.any (lookupFound psksA storeEmpty)) ∧
      (∃ ids, ((unwrapKeyloadEntries F0 dh0 psksA storeEmpty 2 kst2).toOption.get
            (by decide)).keyIds = kst2.keyIds ++ ids ∧ ids.length = 2 ∧
          ((unwrapKeyloadEntries F0 dh0 psksA storeEmpty 2 kst2).toOption.get
              (by decide)).key.isSome
            = (kst2.key.isSome || ids.any (lookupFound psksA storeEmpty))) :=
  ⟨keyload_key_ids_exact.1 F0 dh0 vTrue sigKp0 psksA storeEmpty sp0 [] kinput2 _ (by decide),
    keyload_key_ids_exact.2 F0 dh0 psksA storeEmpty 2 kst2 _ (by decide)⟩

theorem sizeofHDF_eq_wrap_length (F : PRP) (sp : Spongos) (hdf : HDF) (h : hdf.WF) :
    sizeofHDF hdf = (wrapHDF F sp hdf).output.length := by
  obtain ⟨hth, hpub, hlnk⟩ := h
  cases hl : hdf.linked_msg_address with
  | none =>
    cases hp : hdf.publisher with
    | Ed25519PublicKey pk =>
      rw [hp] at hpub
      simp only [Identifier.WF] at hpub
      simp [sizeofHDF, wrapHDF, WCtx.absorbMaybe, WCtx.maskIdentifierW, hl, hp,
        Spongos.encrypt_length, Spongos.squeeze_length, encodeSize_length,
        sizeofIdentifier, hth, hpub]
      omega
    | PskId p =>
      rw [hp] at hpub
      simp only [Identifier.WF] at hpub
      simp [sizeofHDF, wrapHDF, WCtx.absorbMaybe, WCtx.maskIdentifierW, hl, hp,
        Spongos.encrypt_length, Spongos.squeeze_length, encodeSize_length,
        sizeofIdentifier, hth, hpub]
      omega
    | DID uri =>
      simp [sizeofHDF, wrapHDF, WCtx.absorbMaybe, WCtx.maskIdentifierW, hl, hp,
        Spongos.encrypt_length, Spongos.squeeze_length, encodeSize_length,
        sizeofIdentifier, hth]
      omega
  | some a =>
    have ha : a.length = 12 := hlnk a hl
    cases hp : hdf.publisher with
    | Ed25519PublicKey pk =>
      rw [hp] at hpub
      simp only [Identifier.WF] at hpub
      simp [sizeofHDF, wrapHDF, WCtx.absorbMaybe, WCtx.maskIdentifierW, hl, hp,
        Spongos.encrypt_length, Spongos.squeeze_length, encodeSize_length,
        sizeofIdentifier, hth, hpub, ha]
      omega
    | PskId p =>
      rw [hp] at hpub
      simp only [Identifier.WF] at hpub
      simp [sizeofHDF, wrapHDF, WCtx.absorbMaybe, WCtx.maskIdentifierW, hl, hp,
        Spongos.encrypt_length, Spongos.squeeze_length, encodeSize_length,
        sizeofIdentifier, hth, hpub, ha]
      omega
    | DID uri =>
      simp [sizeofHDF, wrapHDF, WCtx.absorbMaybe, WCtx.maskIdentifierW, hl, hp,
        Spongos.encrypt_length, Spongos.squeeze_length, encodeSize_length,
        sizeofIdentifier, hth, ha]
      omega

theorem keyloadSizeofEntries_agree (F : PRP) (dh : List Nat → List Nat → List Nat)
    (key : List Nat) (ephAt : Nat → List Nat × List Nat) (hkey : key.length = 32)
    (hephAt : ∀ i, (ephAt i).2.length = 32) :
    ∀ (keys : List (CIdentifier × List Nat)) (i : Nat) (c : WCtx),
      (∀ e ∈ keys, (e.1 : CIdentifier).WF) →
      (wrapKeyloadEntries F dh key ephAt i keys c).map (fun x => x.output.length)
        = (keyloadSizeofEntries keys).map (fun n => c.output.length + n) := by
  intro keys
  induction keys with
  | nil =>
    intro i c _
    simp [wrapKeyloadEntries, keyloadSizeofEntries, Except.map]
  | cons e rest ih =>
    intro i c hWF
    obtain ⟨id, m⟩ := e
    have hrest : ∀ e ∈ rest, (e.1 : CIdentifier).WF :=
      fun e he => hWF e (List.mem_cons_of_mem _ he)
    have hidWF : id.WF := hWF (id, m) (List.mem_cons_self _ _)
    cases id with
    | PskId p =>
      simp only [wrapKeyloadEntries, keyloadSizeofEntries, wrapKeyloadEntry, bind,
        Except.bind, pure, Except.pure]
      rw [ih (i + 1) _ hrest]
      cases hsr : keyloadSizeofEntries rest with
      | error er => simp [Except.map]
      | ok n =>
        simp only [CIdentifier.WF] at hidWF
        simp [Except.map, Spongos.encrypt_length, cIdSizeof, WCtx.maskCIdentifier,
          hidWF, hkey]
        omega
    | EdPubKey pk =>
      simp only [CIdentifier.WF] at hidWF
      by_cases hm : m.length = 32
      · simp only [wrapKeyloadEntries, keyloadSizeofEntries, wrapKeyloadEntry, bind,
          Except.bind, pure, Except.pure, hm, if_true]
        rw [ih (i + 1) _ hrest]
        cases hsr : keyloadSizeofEntries rest with
        | error er => simp [Except.map]
        | ok n =>
          simp [Except.map, Spongos.encrypt_length, cIdSizeof, WCtx.maskCIdentifier,
            hidWF, hkey, hephAt i]
          omega
      · simp [wrapKeyloadEntries, keyloadSizeofEntries, wrapKeyloadEntry, bind,
          Except.bind, pure, Except.pure, hm, Except.map]

theorem keyloadWrap_sizeof_agree (F : PRP) (dh : List Nat → List Nat → List Nat)
    (sign : List Nat → List Nat → List Nat) (ephAt : Nat → List Nat × List Nat)
    (sp : Spongos) (link nonce key : List Nat) (keys : List (CIdentifier × List Nat))
    (kp : List Nat) (hn : nonce.length = 16) (hkey : key.length = 32)
    (hephAt : ∀ i, (ephAt i).2.length = 32)
    (hsig : ∀ a b, (sign a b).length = 64)
    (hWF : ∀ e ∈ keys, (e.1 : CIdentifier).WF) :
    (keyloadWrap F dh sign ephAt sp link nonce key keys kp).map (fun c => c.output.length)
      = keyloadSizeof keys := by
  have hent := keyloadSizeofEntries_agree F dh key ephAt hkey hephAt keys 0
    (((WCtx.mk (joinSponge F sp link) []).absorbBytes F nonce).absorbSize F keys.length) hWF
  simp only [keyloadWrap, keyloadSizeof, bind, Except.bind]
  cases hw : wrapKeyloadEntries F dh key ephAt 0 keys
      (((WCtx.mk (joinSponge F sp link) []).absorbBytes F nonce).absorbSize F keys.length) with
  | error e =>
    rw [hw] at hent
    cases hse : keyloadSizeofEntries keys with
    | error er =>
      rw [hse] at hent
      simp only [Except.map] at hent ⊢
      exact hent
    | ok n =>
      rw [hse] at hent
      simp [Except.map] at hent
  | ok cb =>
    rw [hw] at hent
    cases hse : keyloadSizeofEntries keys with
    | error er =>
      rw [hse] at hent
      simp [Except.map] at hent
    | ok n =>
      rw [hse] at hent
      simp only [Except.map, Except.ok.injEq] at hent
      simp [Except.map, hsig, encodeSize_length, hn] at hent ⊢
      omega

/-- Claim C6: the byte count accumulated by the sizeof context equals
the byte count emitted by the wrap context, for well-formed HDF headers
and for well-formed Keyload contents, even though the sizeof scripts
omit the external-only operations (the external squeeze/absorb of the
id hash in the keyload wrap script) — external operations emit nothing. -/
theorem sizeof_equals_wrap_length :
    (∀ (F : PRP) (sp : Spongos) (hdf : HDF), hdf.WF →
        sizeofHDF hdf = (wrapHDF F sp hdf).output.length) ∧
      (∀ (F : PRP) (dh sign : List Nat → List Nat → List Nat)
          (ephAt : Nat → List Nat × List Nat) (sp : Spongos)
          (link nonce key : List Nat) (keys : List (CIdentifier × List Nat))
          (kp : List Nat),
        nonce.length = 16 → key.length = 32 → (∀ i, (ephAt i).2.length = 32) →
        (∀ a b, (sign a b).length = 64) → (∀ e ∈ keys, (e.1 : CIdentifier).WF) →
        (keyloadWrap F dh sign ephAt sp link nonce key keys kp).map
            (fun c => c.output.length) = keyloadSizeof keys) := by
  constructor
  · exact sizeofHDF_eq_wrap_length
  · intro F dh sign ephAt sp link nonce key keys kp hn hkey hephAt hsig hWF
    exact keyloadWrap_sizeof_agree F dh sign ephAt sp link nonce key keys kp hn hkey
      hephAt hsig hWF

/-- Witness for C6 at a concrete header and a concrete two-recipient
keyload. -/
theorem sizeof_equals_wrap_length_witness :
    (sizeofHDF hdfValid = (wrapHDF F0 sp0 hdfValid).output.length) ∧
      ((keyloadWrap F0 dh0 sign0 ephAt0 sp0 [] nonce16 key32 [pskEntryA, pskEntryB]
            sigKp0).map (fun c => c.output.length)
        = keyloadSizeof [pskEntryA, pskEntryB]) :=
  ⟨sizeof_equals_wrap_length.1 F0 sp0 hdfValid
      ⟨rfl, rfl, fun a h => by simp [hdfValid, hdfDefault] at h⟩,
    sizeof_equals_wrap_length.2 F0 dh0 sign0 ephAt0 sp0 [] nonce16 key32
      [pskEntryA, pskEntryB] sigKp0 rfl rfl (fun _ => rfl) (fun _ _ => rfl)
      (by simp [pskEntryA, pskEntryB, CIdentifier.WF, pskid16, pskid16b])⟩

/-- The payload of the DID identity variant (spec section 3: a DID URI,
a key fragment string, and an Ed25519 keypair for that verification
method; the internals live in `lets/src/id/did.rs`, outside the provided
sources). -/
structure DIDInfo where
  uri : List Nat
  fragment : List Nat
  keypair : List Nat
deriving DecidableEq, Repr

/-- `IdentityKind` (identity.rs lines 96-100): an Ed25519 secret key or
a DID identity. -/
inductive IdentityKind
  | Ed25519 (secret : List Nat)
  | DID (info : DIDInfo)
deriving DecidableEq, Repr

/-- `IdentityKind::to_identifier` (identity.rs lines 123-130): the
Ed25519 variant derives the public key from the secret (the derivation
is external-crate code, abstracted as the `pubOf` parameter); the DID
variant takes the identifier from the DID URI of its info. -/
def IdentityKind.to_identifier (pubOf : List Nat → List Nat) :
    IdentityKind → Identifier
  | .Ed25519 secret => .Ed25519PublicKey (pubOf secret)
  | .DID info => .DID info.uri

/-- `Identity` (identity.rs lines 41-46): the kind plus its cached
identifier. -/
structure Identity where
  identitykind : IdentityKind
  identifier : Identifier
deriving DecidableEq, Repr

/-- `Identity::new` (identity.rs lines 54-61): caches
`identitykind.to_identifier()`. -/
def Identity.new (pubOf : List Nat → List Nat) (k : IdentityKind) : Identity :=
  ⟨k, k.to_identifier pubOf⟩

/-- `From<IdentityKind> for Identity` (identity.rs lines 75-79). -/
def Identity.fromKind (pubOf : List Nat → List Nat) (k : IdentityKind) : Identity :=
  Identity.new pubOf k

/-- `From<Ed25519> for Identity` (identity.rs lines 81-85). -/
def Identity.fromEd25519 (pubOf : List Nat → List Nat) (secret : List Nat) : Identity :=
  Identity.new pubOf (.Ed25519 secret)

/-- `From<DID> for Identity` (identity.rs lines 88-92). -/
def Identity.fromDID (pubOf : List Nat → List Nat) (d : DIDInfo) : Identity :=
  Identity.new pubOf (.DID d)

/-- `Mask<&mut Identity> for unwrap::Context` (identity.rs lines
156-182): mask the variant byte; 0 masks a 32-byte Ed25519 secret, 1
masks a DID (whose wire format lives in did.rs, outside the provided
sources — abstracted as the `maskDIDu` parameter), anything else is an
error; the reconstructed value always goes through `Identity::new`. -/
def maskIdentity (F : PRP) (pubOf : List Nat → List Nat)
    (maskDIDu : UCtx → Except Err (DIDInfo × UCtx)) (c : UCtx) :
    Except Err (UCtx × Identity) := do
  let oneof ← c.maskU8 F
  match oneof.1 with
  | 0 => do
    let r ← oneof.2.maskBytes F 32
    .ok (r.2, Identity.new pubOf (.Ed25519 r.1))
  | 1 => do
    let r ← maskDIDu oneof.2
    .ok (r.2, Identity.new pubOf (.DID r.1))
  | _ => .error .unknownVariant

/-- Claim C8: every `Identity`, however constructed — `Identity::new`,
the `From` conversions, or reconstruction during unwrap-mask — stores
exactly `identitykind.to_identifier()` as its identifier, and
`to_identifier` is a deterministic function of the kind (equal kinds
give equal identifiers, for any fixed public-key derivation). -/
theorem identity_identifier_invariant :
    (∀ (pubOf : List Nat → List Nat) (k : IdentityKind),
        (Identity.new pubOf k).identifier = k.to_identifier pubOf ∧
          (Identity.new pubOf k).identitykind = k) ∧
      (∀ (pubOf : List Nat → List Nat) (k : IdentityKind),
        Identity.fromKind pubOf k = Identity.new pubOf k) ∧
      (∀ (pubOf : List Nat → List Nat) (s : List Nat),
        Identity.fromEd25519 pubOf s = Identity.new pubOf (.Ed25519 s)) ∧
      (∀ (pubOf : List Nat → List Nat) (d : DIDInfo),
        Identity.fromDID pubOf d = Identity.new pubOf (.DID d)) ∧
      (∀ (F : PRP) (pubOf : List Nat → List Nat)
          (maskDIDu : UCtx → Except Err (DIDInfo × UCtx)) (c c' : UCtx) (i : Identity),
        maskIdentity F pubOf maskDIDu c = .ok (c', i) →
        i.identifier = i.identitykind.to_identifier pubOf) ∧
      (∀ (pubOf : List Nat → List Nat) (k k' : IdentityKind), k = k' →
        k.to_identifier pubOf = k'.to_identifier pubOf) := by
  refine ⟨fun pubOf k => ⟨rfl, rfl⟩, fun pubOf k => rfl, fun pubOf s => rfl,
    fun pubOf d => rfl, ?_, fun pubOf k k' h => by rw [h]⟩
  intro F pubOf maskDIDu c c' i h
  simp only [maskIdentity, bind, Except.bind] at h
  cases ho : c.maskU8 F with
  | error e => simp [ho] at h
  | ok oneof =>
    simp only [ho] at h
    match hv : oneof.1, h with
    | 0, h =>
      cases hr : oneof.2.maskBytes F 32 with
      | error e => simp [hr] at h
      | ok r =>
        simp only [hr, pure, Except.pure] at h
        cases h
        rfl
    | 1, h =>
      cases hr : maskDIDu oneof.2 with
      | error e => simp [hr] at h
      | ok r =>
        simp only [hr, pure, Except.pure] at h
        cases h
        rfl
    | v + 2, h => simp at h

/-- The identity public-key derivation stand-in for concrete runs. -/
def pubOf0 : List Nat → List Nat := fun s => s

/-- A DID unwrap stand-in for concrete runs. -/
def maskDID0 : UCtx → Except Err (DIDInfo × UCtx) := fun _ => .error .unknownVariant

/-- Witness for C8: a concrete unwrap-mask over the wire bytes of an
Ed25519 identity also satisfies the invariant. -/
theorem identity_identifier_invariant_witness :
    ((maskIdentity F0 pubOf0 maskDID0 ⟨sp0, 0 :: psk32⟩).toOption.get (by decide)).2.identifier
      = ((maskIdentity F0 pubOf0 maskDID0 ⟨sp0, 0 :: psk32⟩).toOption.get
          (by decide)).2.identitykind.to_identifier pubOf0 :=
  identity_identifier_invariant.2.2.2.2.1 F0 pubOf0 maskDID0 ⟨sp0, 0 :: psk32⟩
    ((maskIdentity F0 pubOf0 maskDID0 ⟨sp0, 0 :: psk32⟩).toOption.get (by decide)).1
    ((maskIdentity F0 pubOf0 maskDID0 ⟨sp0, 0 :: psk32⟩).toOption.get (by decide)).2
    (by decide)

/-- `Topic` (topic.rs line 20): a Rust `String`, modelled by its UTF-8
byte content. -/
structure Topic where
  bytes : List Nat
deriving DecidableEq, Repr

/-- A UTF-8 continuation byte (`10xxxxxx`). -/
def utf8Cont (b : Nat) : Bool :=
  decide (128 ≤ b) && decide (b ≤ 191)

/-- UTF-8 validity of a byte string, following the table Rust's
`String::from_utf8` validates against (well-formed sequences per the
Unicode standard: no overlong forms, no surrogates, max U+10FFFF). -/
def isValidUtf8 : List Nat → Bool
  | [] => true
  | b :: rest =>
    if b ≤ 127 then isValidUtf8 rest
    else if 194 ≤ b && b ≤ 223 then
      match rest with
      | c1 :: r => utf8Cont c1 && isValidUtf8 r
      | [] => false
    else if b = 224 then
      match rest with
      | c1 :: c2 :: r =>
        (decide (160 ≤ c1) && decide (c1 ≤ 191)) && utf8Cont c2 && isValidUtf8 r
      | _ => false
    else if 225 ≤ b && b ≤ 236 then
      match rest with
      | c1 :: c2 :: r => utf8Cont c1 && utf8Cont c2 && isValidUtf8 r
      | _ => false
    else if b = 237 then
      match rest with
      | c1 :: c2 :: r =>
        (decide (128 ≤ c1) && decide (c1 ≤ 159)) && utf8Cont c2 && isValidUtf8 r
      | _ => false
    else if 238 ≤ b && b ≤ 239 then
      match rest with
      | c1 :: c2 :: r => utf8Cont c1 && utf8Cont c2 && isValidUtf8 r
      | _ => false
    else if b = 240 then
      match rest with
      | c1 :: c2 :: c3 :: r =>
        (decide (144 ≤ c1) && decide (c1 ≤ 191)) && utf8Cont c2 && utf8Cont c3 &&
          isValidUtf8 r
      | _ => false
    else if 241 ≤ b && b ≤ 243 then
      match rest with
      | c1 :: c2 :: c3 :: r =>
        utf8Cont c1 && utf8Cont c2 && utf8Cont c3 && isValidUtf8 r
      | _ => false
    else if b = 244 then
      match rest with
      | c1 :: c2 :: c3 :: r =>
        (decide (128 ≤ c1) && decide (c1 ≤ 143)) && utf8Cont c2 && utf8Cont c3 &&
          isValidUtf8 r
      | _ => false
    else false

/-- `TryFrom<Vec<u8>> for Topic` (topic.rs lines 48-54):
`String::from_utf8` succeeds exactly on valid UTF-8. -/
def topicTryFrom (bs : List Nat) : Option Topic :=
  if isValidUtf8 bs then some ⟨bs⟩ else none

/-- `Mask<&mut Topic> for unwrap::Context` (topic.rs lines 96-107):
mask the `Size`-prefixed byte string into a scratch vector, then convert
it with `TryFrom`; the conversion error propagates before any
assignment to the topic, so the topic of the caller is only replaced on
success (the incoming topic does not influence the result). -/
def maskTopic (F : PRP) (c : UCtx) (_t : Topic) : Except Err (UCtx × Topic) := do
  let r ← c.maskBytesDyn F
  match topicTryFrom r.1 with
  | some t' => .ok (r.2, t')
  | none => .error .utf8Error

/-- Claim C10: unwrap-masking a Topic first decodes the Size-prefixed
masked byte string and only then validates UTF-8.  Part one: on success
the topic equals exactly the decoded bytes, which are valid UTF-8.
Part two: if the decoded bytes are not valid UTF-8 the result is the
UTF-8 error.  Part three: the result never depends on the incoming
topic, so no partially-updated Topic can be observed on the error path. -/
theorem topic_unwrap_utf8 :
    (∀ (F : PRP) (c : UCtx) (t t' : Topic) (c' : UCtx),
        maskTopic F c t = .ok (c', t') →
        ∃ bs, c.maskBytesDyn F = .ok (bs, c') ∧ isValidUtf8 bs = true ∧ t' = ⟨bs⟩) ∧
      (∀ (F : PRP) (c : UCtx) (t : Topic) (bs : List Nat) (c' : UCtx),
        c.maskBytesDyn F = .ok (bs, c') → isValidUtf8 bs = false →
        maskTopic F c t = .error .utf8Error) ∧
      (∀ (F : PRP) (c : UCtx) (t t' : Topic), maskTopic F c t = maskTopic F c t') := by
  refine ⟨?_, ?_, fun F c t t' => rfl⟩
  · intro F c t t' c' h
    simp only [maskTopic, bind, Except.bind] at h
    cases hr : c.maskBytesDyn F with
    | error e => simp [hr] at h
    | ok r =>
      obtain ⟨bs, c2⟩ := r
      simp only [hr, topicTryFrom] at h
      by_cases hv : isValidUtf8 bs
      · simp only [hv, if_true] at h
        cases h
        exact ⟨bs, rfl, hv, rfl⟩
      · simp [hv] at h
  · intro F c t bs c' hr hv
    simp only [maskTopic, bind, Except.bind, hr, topicTryFrom, hv]
    simp

/-- Witness for C10 on concrete masked streams: `[1, 2, 97, 98]` decodes
to the two valid bytes of "ab"; `[1, 2, 195, 40]` decodes to an invalid
two-byte sequence. -/
theorem topic_unwrap_utf8_witness :
    (∃ bs, (⟨sp0, [1, 2, 97, 98]⟩ : UCtx).maskBytesDyn F0
          = .ok (bs, ((maskTopic F0 ⟨sp0, [1, 2, 97, 98]⟩ ⟨[]⟩).toOption.get (by decide)).1) ∧
        isValidUtf8 bs = true ∧
        ((maskTopic F0 ⟨sp0, [1, 2, 97, 98]⟩ ⟨[]⟩).toOption.get (by decide)).2 = ⟨bs⟩) ∧
      maskTopic F0 ⟨sp0, [1, 2, 195, 40]⟩ ⟨[]⟩ = .error .utf8Error :=
  ⟨topic_unwrap_utf8.1 F0 ⟨sp0, [1, 2, 97, 98]⟩ ⟨[]⟩
      ((maskTopic F0 ⟨sp0, [1, 2, 97, 98]⟩ ⟨[]⟩).toOption.get (by decide)).2
      ((maskTopic F0 ⟨sp0, [1, 2, 97, 98]⟩ ⟨[]⟩).toOption.get (by decide)).1 (by decide),
    topic_unwrap_utf8.2.1 F0 ⟨sp0, [1, 2, 195, 40]⟩ ⟨[]⟩
      (((⟨sp0, [1, 2, 195, 40]⟩ : UCtx).maskBytesDyn F0).toOption.get (by decide)).1
      (((⟨sp0, [1, 2, 195, 40]⟩ : UCtx).maskBytesDyn F0).toOption.get (by decide)).2
      (by decide) (by decide)⟩
